import Mathlib

/-!
Order optimizer node: order resolution and pickup sequencing.

A shallow embedding of `OrderOptimizerNode.cpp` / `OrderOptimizerNode.h`.

Modelling conventions.

* `float` / `double` values live in a type `F` with the operations of `FloatModel`.
  Two models are used: a linearly ordered field (numbers only, exact arithmetic), and
  `Ieee`, the rationals with a NaN that every operation passes on and every comparison
  answers `false` to.  Rounding, overflow and infinities are left out of both.  The
  square root is a function supplied by the `Runtime`.
* Everything the source takes from the C++ runtime and does not define itself
  (`sqrt`, `std::atoi`, `std::sort`, the stream formatting of a float, the clock) is
  a field of `Runtime`.  What the C++ standard promises about `std::sort` is the
  predicate `StdSortSpec`; the `std::sort` of GNU libstdc++ is `gnuSort`.
* `std::map<int, ProductDetails>` is a key-ordered association list; only
  `insert` and `at` are used by the source.
* A YAML file is the list of its (well-formed) records; the walk of
  `recursive_directory_iterator` is the list of the entries it yields.
* A scalar the source leaves uninitialised is `0` in the model; on every path
  of the source such a scalar is overwritten before it is read.
* `std::cout` and `outputFile` receive the same lines; the model keeps one list.
-/

namespace OrderOptimizer

/-! ## Data types of `OrderOptimizerNode.h` -/

/-- The struct `OrderDetails`: `cx`, `cy` are the destination. -/
structure OrderDetails (F : Type) where
  order_id : Int
  cx : F
  cy : F
  products : List String
deriving DecidableEq

/-- The struct `Part`: `cx`, `cy` are the location of the part. -/
structure Part (F : Type) where
  part_name : String
  cx : F
  cy : F
  distance : F
  parent_product : String
deriving DecidableEq

/-- The struct `ProductDetails`. -/
structure ProductDetails (F : Type) where
  product_name : String
  parts : List (Part F)
deriving DecidableEq

/-- The fields of `geometry_msgs::msg::PoseStamped` the node reads. -/
structure Pose (F : Type) where
  x : F
  y : F
deriving DecidableEq

/-- The message `msg_package::msg::Order`. -/
structure OrderMsg where
  order_id : Nat
  description : String
deriving DecidableEq

/-- One element of a configuration record's `parts` sequence. -/
structure ConfPart (F : Type) where
  part : String
  cx : F
  cy : F
deriving DecidableEq

/-- One record of a configuration file: `id`, `product`, `parts`. -/
structure ConfEntry (F : Type) where
  id : Int
  product : String
  parts : List (ConfPart F)
deriving DecidableEq

/-- One record of an orders file: `order`, `cx`, `cy`, `products`. -/
structure OrderEntry (F : Type) where
  order : Nat
  cx : F
  cy : F
  products : List String
deriving DecidableEq

/-- What `recursive_directory_iterator(path_)` yields, entry by entry: a directory
named `orders` (with the parsed files `directory_iterator` finds in it), a directory
named `configuration` (likewise), or anything else. -/
inductive DirEntry (F : Type) where
  | orders (files : List (List (OrderEntry F)))
  | configuration (files : List (List (ConfEntry F)))
  | other
deriving DecidableEq

/-- The member variables of `OrderOptimizerNode` that the handlers read or write. -/
structure Node (F : Type) where
  products : List (Int × ProductDetails F)
  configuration_already : Bool
  current_pose : Option (Pose F)
deriving DecidableEq

/-- Shape constants of `visualization_msgs::msg::Marker` (`ARROW` is the default 0). -/
inductive MarkerType where
  | ARROW
  | CUBE
  | SPHERE
  | CYLINDER
deriving DecidableEq

/-- The message `std_msgs::msg::ColorRGBA`. -/
structure ColorRGBA (F : Type) where
  r : F
  g : F
  b : F
  a : F
deriving DecidableEq

/-- The fields of `visualization_msgs::msg::Marker` the node writes. -/
structure Marker (F : Type) where
  ns : String
  frame_id : String
  stamp : Nat
  type : MarkerType
  action : Nat
  x : F
  y : F
  scale_x : F
  scale_y : F
  scale_z : F
  color : ColorRGBA F
deriving DecidableEq

/-- What the source takes from the C++ runtime. -/
structure Runtime (F : Type) where
  /-- The function `sqrt` of `<cmath>`. -/
  sqrt : F → F
  /-- The function `std::atoi`. -/
  atoi : String → Int
  /-- The function `std::sort(first, last, comp)`. -/
  sort : (F × Part F → F × Part F → Bool) → List (F × Part F) → List (F × Part F)
  /-- The text `operator<<` writes for a float. -/
  showFloat : F → String
  /-- The value of `this->now()`. -/
  now : Nat

/-- How a call of `products.at` or a read through `current_pose` can fail. -/
inductive Fault where
  | out_of_range
  | null_pose
deriving DecidableEq

/-- The place at which `msgNextOrder` stopped. -/
inductive Ended (F : Type) where
  | notADirectory
  | positionNotKnown
  | orderNotFound (order_id : Nat)
  | folderNotFound
  | fault (e : Fault)
  | completed (path_vec : List (F × Part F))
deriving DecidableEq

/-- The effects of one call of `msgNextOrder`. -/
structure Handled (F : Type) where
  node : Node F
  cout : List String
  published : List (List (Marker F))
  ended : Ended F
deriving DecidableEq

/-- The outcome of the directory loop of `msgNextOrder`: it either returns from the
handler (order not found) or leaves the loop. -/
inductive Scan (F : Type) where
  | returned (node : Node F)
  | finished (node : Node F) (found : Bool) (details : OrderDetails F)
deriving DecidableEq

/-- The float operations the node uses: the literals `0`, `1` and `0.1`, the operators
`+`, `-`, `*`, `<` and `<=`, and `pow(x, 2)`. -/
class FloatModel (F : Type) where
  /-- The literal `0.0`, also the value of a zero-initialised field. -/
  zero : F
  /-- The literals `1` and `1.0`. -/
  one : F
  /-- The literal `0.1`. -/
  tenth : F
  /-- The operator `+`. -/
  add : F → F → F
  /-- The operator `-`. -/
  sub : F → F → F
  /-- The operator `*`. -/
  mul : F → F → F
  /-- The call `pow(x, 2)`. -/
  pow2 : F → F
  /-- The operator `<`. -/
  lt : F → F → Bool
  /-- The operator `<=`. -/
  le : F → F → Bool

/-- Floats without NaN: the numbers of a linearly ordered field, with exact arithmetic. -/
instance fieldFloatModel {F : Type} [LinearOrderedField F] : FloatModel F where
  zero := 0
  one := 1
  tenth := 0.1
  add := fun a b => a + b
  sub := fun a b => a - b
  mul := fun a b => a * b
  pow2 := fun a => a ^ 2
  lt := fun a b => decide (a < b)
  le := fun a b => decide (a ≤ b)

/-- Floats with NaN: a rational number, or the NaN. -/
inductive Ieee where
  | nan
  | num (q : ℚ)
deriving DecidableEq

/-- An arithmetic operator on `Ieee`: NaN if an operand is NaN. -/
def Ieee.lift2 (f : ℚ → ℚ → ℚ) : Ieee → Ieee → Ieee
  | .num a, .num b => .num (f a b)
  | _, _ => .nan

/-- A comparison operator on `Ieee`: `false` if an operand is NaN. -/
def Ieee.cmp (r : ℚ → ℚ → Bool) : Ieee → Ieee → Bool
  | .num a, .num b => r a b
  | _, _ => false

/-- The function `sqrt` on `Ieee`: NaN for NaN and for a negative number. -/
def Ieee.sqrt : Ieee → Ieee
  | .num a => if a < 0 then .nan else .num (Rat.sqrt a)
  | .nan => .nan

/-- Floats with NaN. -/
instance ieeeFloatModel : FloatModel Ieee where
  zero := .num 0
  one := .num 1
  tenth := .num 0.1
  add := Ieee.lift2 fun a b => a + b
  sub := Ieee.lift2 fun a b => a - b
  mul := Ieee.lift2 fun a b => a * b
  pow2 := fun a => Ieee.lift2 (fun x _ => x ^ 2) a a
  lt := Ieee.cmp fun a b => decide (a < b)
  le := Ieee.cmp fun a b => decide (a ≤ b)

section Model

variable {F : Type} [FloatModel F]

/-! ## `std::map<int, ProductDetails>` -/

/-- The call `products.at(k)`: `none` stands for `std::out_of_range`. -/
def productsAt {V : Type} (m : List (Int × V)) (k : Int) : Option V :=
  m.lookup k

/-- The call `products.insert({k, v})`: an existing key keeps its value. -/
def mapInsert {V : Type} : List (Int × V) → Int → V → List (Int × V)
  | [], k, v => [(k, v)]
  | (k0, v0) :: rest, k, v =>
    if k < k0 then (k, v) :: (k0, v0) :: rest
    else if k = k0 then (k0, v0) :: rest
    else (k0, v0) :: mapInsert rest k v

/-! ## The free function `compare` and `OrderOptimizerNode::distance` -/

/-- The comparator `compare`: `p1.first < p2.first`, with the `<` of the float model
(`false` whenever an operand is NaN). -/
def compare (p1 p2 : F × Part F) : Bool :=
  FloatModel.lt p1.1 p2.1

/-- The member function `distance(x1, y1, x2, y2)`. -/
def distance (rt : Runtime F) (x1 y1 x2 y2 : F) : F :=
  let x := FloatModel.pow2 (FloatModel.sub x2 x1)
  let y := FloatModel.pow2 (FloatModel.sub y2 y1)
  rt.sqrt (FloatModel.add x (FloatModel.mul y FloatModel.one))

/-! ## `parseConfFile` and `parseOrderFile` -/

/-- The inner loop of `parseConfFile`: one `Part` per element of `parts`, stamped
with the product name. -/
def confParts (product_name : String) (parts : List (ConfPart F)) : List (Part F) :=
  parts.map fun part_it =>
    { part_name := part_it.part, cx := part_it.cx, cy := part_it.cy,
      distance := FloatModel.zero, parent_product := product_name }

/-- The body of the outer loop of `parseConfFile` for one record. -/
def confInsert (m : List (Int × ProductDetails F)) (e : ConfEntry F) :
    List (Int × ProductDetails F) :=
  mapInsert m e.id { product_name := e.product, parts := confParts e.product e.parts }

/-- The member function `parseConfFile`. -/
def parseConfFile (node : Node F) (config : List (ConfEntry F)) : Node F :=
  { node with
    products := config.foldl confInsert node.products
    configuration_already := true }

/-- The conversion of the `uint32` order id to the `int` field `order_id`. -/
def toInt32 (n : Nat) : Int :=
  if n % 2 ^ 32 < 2 ^ 31 then ((n % 2 ^ 32 : Nat) : Int) else ((n % 2 ^ 32 : Nat) : Int) - 2 ^ 32

/-- The member function `parseOrderFile`: the reference parameters `found`, `details`
(and `pr`, which aliases `details->products`) are passed in and returned. -/
def parseOrderFile : List (OrderEntry F) → Nat → Bool → OrderDetails F → Bool × OrderDetails F
  | [], _, found, details => (found, details)
  | e :: rest, order_id, found, details =>
    if e.order = order_id then
      (true, { order_id := toInt32 order_id, cx := e.cx, cy := e.cy,
               products := details.products ++ e.products })
    else parseOrderFile rest order_id found details

/-! ## `FindShortestPath` -/

/-- The loop over the parts of one product in `FindShortestPath`. -/
def visitParts (rt : Runtime F) (current_pose : Option (Pose F)) :
    List (Part F) → List (F × Part F) → Except Fault (List (F × Part F))
  | [], shortest_path => .ok shortest_path
  | it_part :: rest, shortest_path =>
    match current_pose with
    | none => .error .null_pose
    | some pose =>
      let d := distance rt pose.x pose.y it_part.cx it_part.cy
      visitParts rt current_pose rest (shortest_path ++ [(d, { it_part with distance := d })])

/-- The loop over the product names of the order in `FindShortestPath`. -/
def visitProducts (rt : Runtime F) (node : Node F) :
    List String → List (F × Part F) → Except Fault (List (F × Part F))
  | [], shortest_path => .ok shortest_path
  | it_product_name :: rest, shortest_path =>
    match productsAt node.products (rt.atoi it_product_name) with
    | none => .error .out_of_range
    | some product =>
      match visitParts rt node.current_pose product.parts shortest_path with
      | .error e => .error e
      | .ok shortest_path2 => visitProducts rt node rest shortest_path2

/-- The member function `FindShortestPath`. -/
def FindShortestPath (rt : Runtime F) (node : Node F) (details_ : OrderDetails F) :
    Except Fault (List (F × Part F)) :=
  match visitProducts rt node details_.products [] with
  | .error e => .error e
  | .ok shortest_path => .ok (rt.sort compare shortest_path)

/-! ## `PathOutput` -/

/-- One line of the loop of `PathOutput`. -/
def fetchLine (rt : Runtime F) (i : Nat) (p : F × Part F) : String :=
  toString i ++ ". Fetching part '" ++ p.2.part_name ++ "' for product '" ++
    p.2.parent_product ++ "' at x: " ++ rt.showFloat p.2.cx ++ ", y: " ++ rt.showFloat p.2.cy

/-- The last line of `PathOutput`. -/
def deliverLine (rt : Runtime F) (i : Nat) (details_ : OrderDetails F) : String :=
  toString i ++ ". Delivering to destination x:" ++ rt.showFloat details_.cx ++ ", y: " ++
    rt.showFloat details_.cy

/-- The loop of `PathOutput`, started at index `i`. -/
def fetchLoop (rt : Runtime F) (details_ : OrderDetails F) : Nat → List (F × Part F) → List String
  | i, [] => [deliverLine rt i details_]
  | i, p :: rest => fetchLine rt i p :: fetchLoop rt details_ (i + 1) rest

/-- The member function `PathOutput`: the lines written. -/
def PathOutput (rt : Runtime F) (msg : OrderMsg) (vector : List (F × Part F))
    (details_ : OrderDetails F) : List String :=
  ("Working on order " ++ toString msg.order_id ++ " (" ++ msg.description ++ ")") ::
    fetchLoop rt details_ 0 vector

/-! ## Markers -/

/-- A default-constructed `Marker`. -/
def Marker.empty : Marker F :=
  { ns := "", frame_id := "", stamp := 0, type := .ARROW, action := 0,
    x := FloatModel.zero, y := FloatModel.zero,
    scale_x := FloatModel.zero, scale_y := FloatModel.zero, scale_z := FloatModel.zero,
    color := { r := FloatModel.zero, g := FloatModel.zero, b := FloatModel.zero,
               a := FloatModel.zero } }

/-- The member function `AMRMarker`. -/
def AMRMarker (node : Node F) : Marker F :=
  let marker : Marker F := { (Marker.empty : Marker F) with
    ns := "AMR", frame_id := "order_path", type := .CUBE }
  let marker : Marker F :=
    match node.current_pose with
    | some pose => { marker with x := pose.x, y := pose.y }
    | none => marker
  { marker with
    scale_x := FloatModel.one, scale_y := FloatModel.tenth, scale_z := FloatModel.tenth,
    action := 0,
    color := { a := FloatModel.one, r := FloatModel.zero, g := FloatModel.one,
               b := FloatModel.zero } }

/-- The member function `Pickup`. -/
def Pickup (rt : Runtime F) (pair : F × Part F) : Marker F :=
  { (Marker.empty : Marker F) with
    ns := pair.2.parent_product ++ " " ++ pair.2.part_name
    frame_id := "order_path"
    stamp := rt.now
    type := .CYLINDER
    x := pair.2.cx
    y := pair.2.cy
    scale_x := FloatModel.one, scale_y := FloatModel.tenth, scale_z := FloatModel.tenth
    action := 0
    color := { a := FloatModel.one, r := FloatModel.one, g := FloatModel.zero,
               b := FloatModel.zero } }

/-- The member function `PublishMarkerArray`: the array handed to `publish`. -/
def PublishMarkerArray (rt : Runtime F) (node : Node F) (path_vec : List (F × Part F)) :
    List (Marker F) :=
  AMRMarker node :: path_vec.map (Pickup rt)

/-! ## `msgNextOrder` -/

/-- The loop over the files of an `orders` directory. -/
def scanOrderFiles (order_id : Nat) :
    List (List (OrderEntry F)) → Bool → OrderDetails F → Bool × OrderDetails F
  | [], found, details_ => (found, details_)
  | file :: rest, found, details_ =>
    let r := parseOrderFile file order_id found details_
    scanOrderFiles order_id rest r.1 r.2

/-- The loop over the files of a `configuration` directory. -/
def scanConfFiles (node : Node F) (files : List (List (ConfEntry F))) : Node F :=
  files.foldl parseConfFile node

/-- The loop of `msgNextOrder` over the directory walk. -/
def walkLoop (order_id : Nat) : List (DirEntry F) → Node F → Bool → OrderDetails F → Scan F
  | [], node, found, details_ => .finished node found details_
  | .orders files :: rest, node, found, details_ =>
    let r := scanOrderFiles order_id files found details_
    if !r.1 then .returned node
    else walkLoop order_id rest node r.1 r.2
  | .configuration files :: rest, node, found, details_ =>
    if !node.configuration_already then
      walkLoop order_id rest (scanConfFiles node files) found details_
    else if found && node.configuration_already then .finished node found details_
    else walkLoop order_id rest node found details_
  | .other :: rest, node, found, details_ =>
    if found && node.configuration_already then .finished node found details_
    else walkLoop order_id rest node found details_

/-- The local `OrderDetails details_` before the loop: no products yet. -/
def freshDetails : OrderDetails F :=
  { order_id := 0, cx := FloatModel.zero, cy := FloatModel.zero, products := [] }

/-- The handler `msgNextOrder`. `path_is_directory` is `fs::is_directory(path_)` and
`walk` what the recursive iteration of `path_` yields. -/
def msgNextOrder (rt : Runtime F) (path_is_directory : Bool) (walk : List (DirEntry F))
    (node : Node F) (msg : OrderMsg) : Handled F :=
  if !path_is_directory then
    { node := node, cout := ["[ERROR]: Absolute path is not a directory!"], published := [],
      ended := .notADirectory }
  else if node.current_pose.isNone then
    { node := node, cout := ["[ERROR]: AMR current position not Known!"], published := [],
      ended := .positionNotKnown }
  else
    match walkLoop msg.order_id walk node false freshDetails with
    | .returned node1 =>
      { node := node1, cout := ["[ERROR]: Order " ++ toString msg.order_id ++ " not found!"],
        published := [], ended := .orderNotFound msg.order_id }
    | .finished node1 found details_ =>
      if !found || !node1.configuration_already then
        { node := node1, cout := ["[ERROR]: orders/configuration folder not found!"],
          published := [], ended := .folderNotFound }
      else
        match FindShortestPath rt node1 details_ with
        | .error e => { node := node1, cout := [], published := [], ended := .fault e }
        | .ok path_vec =>
          { node := node1, cout := PathOutput rt msg path_vec details_,
            published := [PublishMarkerArray rt node1 path_vec], ended := .completed path_vec }

/-- The node as the directory loop leaves it. -/
def Scan.node {F : Type} : Scan F → Node F
  | .returned node => node
  | .finished node _ _ => node

/-- The handler `msgCurrentPos`. -/
def msgCurrentPos (node : Node F) (msg : Pose F) : Node F :=
  { node with current_pose := some msg }

/-! ## The contract of `std::sort` -/

/-- The requirement of the C++ standard on a comparator: `comp` is irreflexive and
transitive, and so is the equivalence "neither is before the other". -/
def StrictWeakOrder {α : Type} (comp : α → α → Bool) : Prop :=
  (∀ a, comp a a = false) ∧
  (∀ a b c, comp a b = true → comp b c = true → comp a c = true) ∧
  (∀ a b c, comp a b = false → comp b a = false → comp b c = false → comp c b = false →
    comp a c = false ∧ comp c a = false)

/-- What the C++ standard promises of `std::sort` when the comparator is a strict
weak ordering: the range is rearranged (a permutation) so that no later element is
before an earlier one. Nothing is promised about the order of equivalent elements. -/
def StdSortSpec {α : Type} (sort : (α → α → Bool) → List α → List α) : Prop :=
  ∀ comp l, StrictWeakOrder comp →
    (sort comp l).Perm l ∧ (sort comp l).Pairwise (fun a b => comp b a = false)

end Model

/-! ## The `std::sort` of GNU libstdc++ (`bits/stl_algo.h`)

The range is a list and an iterator is an index into it. The heapsort that
`__introsort_loop` falls back on when its depth limit is used up
(`__partial_sort(first, last, last)`) is the argument `heap`. Where the source would
step outside the range, which it does for no strict weak ordering, a comparison answers
`false` and a swap does nothing. -/

section GnuSort

variable {α : Type}

end GnuSort

section SpecWords

variable {F : Type} [LinearOrderedField F]

/-! ## The sequencer in the words of the specification -/

/-- The Euclidean distance as the specification writes it. -/
def euclid (rt : Runtime F) (px py x y : F) : F :=
  rt.sqrt ((px - x) ^ 2 + (py - y) ^ 2)

/-- The flat list of the specification: for each required product id in order, each
part of that product paired with its Euclidean distance from the position. -/
def flatPickups (rt : Runtime F) (catalog : List (Int × ProductDetails F)) (pos : Pose F)
    (ids : List String) : List (F × Part F) :=
  ids.flatMap fun id =>
    match productsAt catalog (rt.atoi id) with
    | none => []
    | some product =>
      product.parts.map fun part =>
        (euclid rt pos.x pos.y part.cx part.cy,
          { part with distance := euclid rt pos.x pos.y part.cx part.cy })

/-- The total part count over the required products. -/
def totalPartCount (rt : Runtime F) (catalog : List (Int × ProductDetails F))
    (ids : List String) : Nat :=
  (ids.map fun id =>
    match productsAt catalog (rt.atoi id) with
    | none => 0
    | some product => product.parts.length).sum

end SpecWords

/-! ## A concrete runtime over the rationals -/

/-- The white-space characters `std::atoi` skips. -/
def isCSpace (c : Char) : Bool :=
  c = ' ' || c = '\t' || c = '\n' || c = '\x0b' || c = '\x0c' || c = '\r'

/-- The digits `std::atoi` reads, most significant first. -/
def atoiDigits : List Char → Int → Int
  | [], acc => acc
  | c :: cs, acc =>
    if c.isDigit then atoiDigits cs (acc * 10 + ((c.toNat - 48 : Nat) : Int)) else acc

/-- The function `std::atoi` on strings whose value fits: leading white space, an
optional sign, then decimal digits up to the first other character. -/
def cAtoi (s : String) : Int :=
  match s.toList.dropWhile isCSpace with
  | '-' :: cs => - atoiDigits cs 0
  | '+' :: cs => atoiDigits cs 0
  | cs => atoiDigits cs 0

/-- A sort that keeps equivalent elements in their order of arrival. -/
def stableSort {α : Type} (comp : α → α → Bool) (l : List α) : List α :=
  l.insertionSort (fun a b => comp b a = false)

/-- A runtime over `ℚ` whose sort is stable. -/
def demoRuntime : Runtime ℚ :=
  { sqrt := Rat.sqrt, atoi := cAtoi, sort := stableSort, showFloat := fun q => toString q,
    now := 0 }

/-- The catalog of the scenario: product 1 with `partA` at (0,0) and `partB` at (3,4). -/
def demoCatalog : List (Int × ProductDetails ℚ) :=
  [(1, { product_name := "P1",
         parts := [{ part_name := "partA", cx := 0, cy := 0, distance := 0, parent_product := "P1" },
                   { part_name := "partB", cx := 3, cy := 4, distance := 0, parent_product := "P1" }] })]

/-- A node holding the scenario catalog, with the robot at (0,0). -/
def demoNode : Node ℚ :=
  { products := demoCatalog, configuration_already := true, current_pose := some { x := 0, y := 0 } }

/-- Order 7 of the scenario: it requires product "1". -/
def demoOrder : OrderDetails ℚ :=
  { order_id := 7, cx := 10, cy := 20, products := ["1"] }

/-- Two order files that both hold order 7, with different destinations and products. -/
def duplicateFiles : List (List (OrderEntry ℚ)) :=
  [[{ order := 7, cx := 1, cy := 1, products := ["1"] }],
   [{ order := 7, cx := 2, cy := 2, products := ["2"] }]]

/-- An orders file: order 7 of the scenario, and order 8, which requires the products
"1" and "42" and is entered twice. -/
def demoOrderFile : List (OrderEntry ℚ) :=
  [{ order := 7, cx := 10, cy := 20, products := ["1"] },
   { order := 8, cx := 30, cy := 40, products := ["1", "42"] },
   { order := 8, cx := 50, cy := 60, products := ["1"] }]

/-- A configuration file declaring product 1 of the scenario. -/
def demoConfFile : List (ConfEntry ℚ) :=
  [{ id := 1, product := "P1",
     parts := [{ part := "partA", cx := 0, cy := 0 }, { part := "partB", cx := 3, cy := 4 }] }]

/-- A node before any configuration or position has been received. -/
def startNode : Node ℚ :=
  { products := [], configuration_already := false, current_pose := none }

/-- A node that has received the position (0,0) and no configuration yet. -/
def poseNode : Node ℚ :=
  { products := [], configuration_already := false, current_pose := some { x := 0, y := 0 } }

/-- The resolved form of order 8 of `demoOrderFile`. -/
def order42 : OrderDetails ℚ :=
  { order_id := 8, cx := 30, cy := 40, products := ["1", "42"] }

/-- A walk of the storage directory: the `configuration` folder and its file, then the
`orders` folder and its file. -/
def demoWalk : List (DirEntry ℚ) :=
  [.configuration [demoConfFile], .other, .orders [demoOrderFile], .other]

/-- A walk of a storage directory that has a `configuration` folder and no `orders`
folder. -/
def confOnlyWalk : List (DirEntry ℚ) :=
  [.configuration [demoConfFile], .other]

/-! ## The comparator and the sort contract -/

section SortLemmas

variable {F : Type} [LinearOrderedField F]

@[simp] theorem zero_field : (FloatModel.zero : F) = 0 := rfl

@[simp] theorem one_field : (FloatModel.one : F) = 1 := rfl

@[simp] theorem tenth_field : (FloatModel.tenth : F) = 0.1 := rfl

@[simp] theorem add_field (a b : F) : FloatModel.add a b = a + b := rfl

@[simp] theorem sub_field (a b : F) : FloatModel.sub a b = a - b := rfl

@[simp] theorem mul_field (a b : F) : FloatModel.mul a b = a * b := rfl

@[simp] theorem pow2_field (a : F) : FloatModel.pow2 a = a ^ 2 := rfl

@[simp] theorem lt_field (a b : F) : FloatModel.lt a b = decide (a < b) := rfl

@[simp] theorem le_field (a b : F) : FloatModel.le a b = decide (a ≤ b) := rfl

theorem compare_eq_true_iff (a b : F × Part F) : compare a b = true ↔ a.1 < b.1 := by
  simp [compare]

theorem compare_eq_false_iff (a b : F × Part F) : compare a b = false ↔ b.1 ≤ a.1 := by
  simp [compare]

/-- The comparator of the source meets the requirement `std::sort` puts on it. -/
theorem compare_strictWeakOrder : StrictWeakOrder (compare : F × Part F → F × Part F → Bool) := by
  refine ⟨?_, ?_, ?_⟩
  · intro a
    simp [compare]
  · intro a b c hab hbc
    rw [compare_eq_true_iff] at *
    exact lt_trans hab hbc
  · intro a b c hab hba hbc hcb
    simp only [compare_eq_false_iff] at *
    exact ⟨le_trans hbc hab, le_trans hba hcb⟩

theorem StrictWeakOrder.asymm {α : Type} {comp : α → α → Bool} (h : StrictWeakOrder comp)
    {a b : α} (hab : comp a b = true) : comp b a = false := by
  cases hba : comp b a
  · rfl
  · have := h.2.1 a b a hab hba
    rw [h.1 a] at this
    cases this

theorem StrictWeakOrder.negTrans {α : Type} {comp : α → α → Bool} (h : StrictWeakOrder comp)
    {a b c : α} (hba : comp b a = false) (hcb : comp c b = false) : comp c a = false := by
  cases hca : comp c a
  · rfl
  · exfalso
    have hbc : comp b c = false := by
      cases hbc : comp b c
      · rfl
      · have := h.2.1 b c a hbc hca
        rw [hba] at this
        cases this
    have hab : comp a b = false := by
      cases hab : comp a b
      · rfl
      · have := h.2.1 c a b hca hab
        rw [hcb] at this
        cases this
    have := (h.2.2 a b c hab hba hbc hcb).2
    rw [hca] at this
    cases this

/-- The stable insertion sort meets the contract of `std::sort`. -/
theorem stableSort_spec {α : Type} : StdSortSpec (stableSort : (α → α → Bool) → List α → List α) := by
  intro comp l h
  refine ⟨List.perm_insertionSort _ l, ?_⟩
  haveI : IsTotal α (fun a b => comp b a = false) := ⟨fun a b => by
    cases hab : comp a b
    · exact Or.inr rfl
    · exact Or.inl (h.asymm hab)⟩
  haveI : IsTrans α (fun a b => comp b a = false) := ⟨fun a b c hab hbc => h.negTrans hab hbc⟩
  exact List.sorted_insertionSort (fun a b => comp b a = false) l

end SortLemmas

/-! ## `FindShortestPath` -/

section Sequencer

variable {F : Type} [LinearOrderedField F]

theorem distance_eq_euclid (rt : Runtime F) (px py x y : F) :
    distance rt px py x y = euclid rt px py x y := by
  have h : (x - px) ^ 2 + (y - py) ^ 2 * 1 = (px - x) ^ 2 + (py - y) ^ 2 := by ring
  simp only [distance, euclid, add_field, sub_field, mul_field, pow2_field, one_field, h]

theorem visitParts_some (rt : Runtime F) (pos : Pose F) (parts : List (Part F))
    (acc : List (F × Part F)) :
    visitParts rt (some pos) parts acc =
      .ok (acc ++ parts.map fun part =>
        (euclid rt pos.x pos.y part.cx part.cy,
          { part with distance := euclid rt pos.x pos.y part.cx part.cy })) := by
  induction parts generalizing acc with
  | nil => simp [visitParts]
  | cons part rest ih =>
    simp only [visitParts, ih, distance_eq_euclid, List.map_cons, List.append_assoc,
      List.singleton_append]

theorem visitProducts_present (rt : Runtime F) (node : Node F) (pos : Pose F)
    (hpose : node.current_pose = some pos) (ids : List String)
    (hids : ∀ id ∈ ids, (productsAt node.products (rt.atoi id)).isSome = true)
    (acc : List (F × Part F)) :
    visitProducts rt node ids acc = .ok (acc ++ flatPickups rt node.products pos ids) := by
  induction ids generalizing acc with
  | nil => simp [visitProducts, flatPickups]
  | cons id rest ih =>
    have hid := hids id (List.mem_cons_self _ _)
    obtain ⟨product, hproduct⟩ := Option.isSome_iff_exists.mp hid
    have hrest : ∀ id ∈ rest, (productsAt node.products (rt.atoi id)).isSome = true :=
      fun j hj => hids j (List.mem_cons_of_mem _ hj)
    simp only [visitProducts, hproduct, hpose, visitParts_some, ih hrest]
    simp [flatPickups, hproduct]

theorem FindShortestPath_present (rt : Runtime F) (node : Node F) (pos : Pose F)
    (details : OrderDetails F) (hpose : node.current_pose = some pos)
    (hids : ∀ id ∈ details.products, (productsAt node.products (rt.atoi id)).isSome = true) :
    FindShortestPath rt node details =
      .ok (rt.sort compare (flatPickups rt node.products pos details.products)) := by
  simp [FindShortestPath, visitProducts_present rt node pos hpose details.products hids]

theorem length_flatPickups (rt : Runtime F) (catalog : List (Int × ProductDetails F))
    (pos : Pose F) (ids : List String) :
    (flatPickups rt catalog pos ids).length = totalPartCount rt catalog ids := by
  induction ids with
  | nil => simp [flatPickups, totalPartCount]
  | cons id rest ih =>
    simp only [flatPickups, totalPartCount, List.flatMap_cons, List.length_append,
      List.map_cons, List.sum_cons] at ih ⊢
    rw [ih]
    cases productsAt catalog (rt.atoi id) <;> simp

end Sequencer

/-! ## Claims about the sequencer -/

section SequencerClaims

variable {F : Type} [LinearOrderedField F]

/-- C2. Whenever `std::sort` keeps its contract, the robot position is known and every
required product id is in the catalog, `FindShortestPath` returns a permutation of the
flat list of the specification (for each required id in order, repeats included, each
part of that product paired with `sqrt((px - x)^2 + (py - y)^2)`, the part carrying that
distance in its `distance` field); so it has exactly as many entries as the required
products have parts in total. -/
theorem FindShortestPath_perm (rt : Runtime F) (hsort : StdSortSpec rt.sort) (node : Node F)
    (pos : Pose F) (details : OrderDetails F) (hpose : node.current_pose = some pos)
    (hids : ∀ id ∈ details.products, (productsAt node.products (rt.atoi id)).isSome = true) :
    ∃ out, FindShortestPath rt node details = .ok out ∧
      out.Perm (flatPickups rt node.products pos details.products) ∧
      out.length = totalPartCount rt node.products details.products := by
  refine ⟨_, FindShortestPath_present rt node pos details hpose hids, ?_⟩
  have hp := (hsort compare (flatPickups rt node.products pos details.products)
    compare_strictWeakOrder).1
  exact ⟨hp, by rw [hp.length_eq, length_flatPickups]⟩

end SequencerClaims

theorem rat_sqrt_zero : Rat.sqrt 0 = 0 := by
  rw [show (0 : ℚ) = 0 * 0 by norm_num, Rat.sqrt_eq]
  norm_num

theorem rat_sqrt_twentyfive : Rat.sqrt 25 = 5 := by
  rw [show (25 : ℚ) = 5 * 5 by norm_num, Rat.sqrt_eq]
  norm_num

theorem cAtoi_one : cAtoi "1" = 1 := by decide

theorem demo_FindShortestPath :
    FindShortestPath demoRuntime demoNode demoOrder =
      .ok [(0, { part_name := "partA", cx := 0, cy := 0, distance := 0, parent_product := "P1" }),
           (5, { part_name := "partB", cx := 3, cy := 4, distance := 5, parent_product := "P1" })] := by
  simp [FindShortestPath, visitProducts, visitParts, demoRuntime, demoNode, demoOrder, demoCatalog,
    productsAt, cAtoi_one, distance, stableSort, List.lookup]
  norm_num [rat_sqrt_twentyfive, rat_sqrt_zero, compare]

/-- C2 at the scenario of the specification: the sequence is `[(0, partA), (5, partB)]`. -/
theorem FindShortestPath_perm_witness :
    FindShortestPath demoRuntime demoNode demoOrder =
      .ok [(0, { part_name := "partA", cx := 0, cy := 0, distance := 0, parent_product := "P1" }),
           (5, { part_name := "partB", cx := 3, cy := 4, distance := 5, parent_product := "P1" })] ∧
    ∃ out, FindShortestPath demoRuntime demoNode demoOrder = .ok out ∧
      out.Perm (flatPickups demoRuntime demoNode.products { x := 0, y := 0 } demoOrder.products) ∧
      out.length = totalPartCount demoRuntime demoNode.products demoOrder.products :=
  ⟨demo_FindShortestPath,
    FindShortestPath_perm demoRuntime stableSort_spec demoNode { x := 0, y := 0 } demoOrder rfl
      (by decide)⟩

section GnuSortLemmas

variable {F : Type} [LinearOrderedField F]

end GnuSortLemmas

section Resolution

variable {F : Type}

theorem parseOrderFile_absent (file : List (OrderEntry F)) (order_id : Nat) (found : Bool)
    (details : OrderDetails F) (h : ∀ e ∈ file, e.order ≠ order_id) :
    parseOrderFile file order_id found details = (found, details) := by
  induction file with
  | nil => rfl
  | cons e rest ih =>
    have he : e.order ≠ order_id := h e (List.mem_cons_self _ _)
    simp only [parseOrderFile, he, if_false]
    exact ih fun x hx => h x (List.mem_cons_of_mem _ hx)

theorem parseOrderFile_first (before after : List (OrderEntry F)) (e : OrderEntry F)
    (order_id : Nat) (found : Bool) (details : OrderDetails F)
    (hbefore : ∀ x ∈ before, x.order ≠ order_id) (he : e.order = order_id) :
    parseOrderFile (before ++ e :: after) order_id found details =
      (true, { order_id := toInt32 order_id, cx := e.cx, cy := e.cy,
               products := details.products ++ e.products }) := by
  induction before with
  | nil => simp [parseOrderFile, he]
  | cons x rest ih =>
    have hx : x.order ≠ order_id := hbefore x (List.mem_cons_self _ _)
    simp only [List.cons_append, parseOrderFile, hx, if_false]
    exact ih fun y hy => hbefore y (List.mem_cons_of_mem _ hy)

theorem scanOrderFiles_absent (order_id : Nat) (files : List (List (OrderEntry F))) (found : Bool)
    (details : OrderDetails F) (h : ∀ file ∈ files, ∀ e ∈ file, e.order ≠ order_id) :
    scanOrderFiles order_id files found details = (found, details) := by
  induction files with
  | nil => rfl
  | cons file rest ih =>
    simp only [scanOrderFiles, parseOrderFile_absent file order_id found details
      (h file (List.mem_cons_self _ _))]
    exact ih fun f hf => h f (List.mem_cons_of_mem _ hf)

theorem scanOrderFiles_append (order_id : Nat) (pre post : List (List (OrderEntry F)))
    (found : Bool) (details : OrderDetails F) :
    scanOrderFiles order_id (pre ++ post) found details =
      scanOrderFiles order_id post (scanOrderFiles order_id pre found details).1
        (scanOrderFiles order_id pre found details).2 := by
  induction pre generalizing found details with
  | nil => rfl
  | cons file rest ih =>
    simp only [List.cons_append, scanOrderFiles]
    exact ih _ _

/-- C4 as stated fails: with order 7 in two files, the resolved details carry the
destination of the second file and the products of both, not those of the first
matching entry. -/
theorem first_match_across_files_refuted :
    ¬ ∀ (order_id : Nat) (files : List (List (OrderEntry ℚ))) (e : OrderEntry ℚ),
      files.flatten.find? (fun x => decide (x.order = order_id)) = some e →
        (scanOrderFiles order_id files false freshDetails).2.cx = e.cx ∧
        (scanOrderFiles order_id files false freshDetails).2.cy = e.cy ∧
        (scanOrderFiles order_id files false freshDetails).2.products = e.products := by
  intro h
  have h7 := h 7 duplicateFiles { order := 7, cx := 1, cy := 1, products := ["1"] } (by decide)
  revert h7
  decide

/-- C4, amended. For every requested order id and every sequence of order files in which
one file alone has entries with that id, the scan finds the order and the resolved
details have the destination and exactly the product list of the first matching entry
of that file; what follows that entry in the file contributes nothing. -/
theorem first_match_in_single_file [LinearOrderedField F] (order_id : Nat) (pre post : List (List (OrderEntry F)))
    (before after : List (OrderEntry F)) (e : OrderEntry F)
    (hpre : ∀ file ∈ pre, ∀ x ∈ file, x.order ≠ order_id)
    (hpost : ∀ file ∈ post, ∀ x ∈ file, x.order ≠ order_id)
    (hbefore : ∀ x ∈ before, x.order ≠ order_id) (he : e.order = order_id) :
    scanOrderFiles order_id (pre ++ (before ++ e :: after) :: post) false freshDetails =
      (true, { order_id := toInt32 order_id, cx := e.cx, cy := e.cy, products := e.products }) := by
  rw [scanOrderFiles_append, scanOrderFiles_absent order_id pre false freshDetails hpre]
  simp only [scanOrderFiles, parseOrderFile_first before after e order_id false freshDetails
    hbefore he]
  rw [scanOrderFiles_absent order_id post _ _ hpost]
  simp [freshDetails]

end Resolution

/-- C4, amended, at a file whose second and third entries both are order 7, between two
files without it: the second entry is the one resolved. -/
theorem first_match_in_single_file_witness :
    scanOrderFiles 7
        (([[{ order := 1, cx := 5, cy := 5, products := ["9"] }]] : List (List (OrderEntry ℚ))) ++
          (([{ order := 3, cx := 0, cy := 0, products := ["1"] }] : List (OrderEntry ℚ)) ++
            { order := 7, cx := 10, cy := 20, products := ["1", "42"] } ::
              [{ order := 7, cx := 30, cy := 40, products := ["1"] }]) ::
          ([[{ order := 2, cx := 6, cy := 6, products := ["8"] }]] : List (List (OrderEntry ℚ))))
        false (freshDetails : OrderDetails ℚ) =
      ((true, { order_id := toInt32 7, cx := 10, cy := 20, products := ["1", "42"] }) :
        Bool × OrderDetails ℚ) :=
  @first_match_in_single_file ℚ _ 7 [[{ order := 1, cx := 5, cy := 5, products := ["9"] }]]
    [[{ order := 2, cx := 6, cy := 6, products := ["8"] }]]
    [{ order := 3, cx := 0, cy := 0, products := ["1"] }]
    [{ order := 7, cx := 30, cy := 40, products := ["1"] }]
    { order := 7, cx := 10, cy := 20, products := ["1", "42"] }
    (by decide) (by decide) (by decide) rfl

/-! ## The handler `msgNextOrder` -/

section Handler

variable {F : Type} [LinearOrderedField F]

theorem scanConfFiles_pose (node : Node F) (files : List (List (ConfEntry F))) :
    (scanConfFiles node files).current_pose = node.current_pose := by
  induction files generalizing node with
  | nil => rfl
  | cons file rest ih =>
    simp only [scanConfFiles, List.foldl_cons] at ih ⊢
    rw [ih]
    rfl

theorem walkLoop_pose (order_id : Nat) (walk : List (DirEntry F)) (node : Node F) (found : Bool)
    (details : OrderDetails F) (node1 : Node F) (found1 : Bool) (details1 : OrderDetails F)
    (h : walkLoop order_id walk node found details = .finished node1 found1 details1) :
    node1.current_pose = node.current_pose := by
  induction walk generalizing node found details with
  | nil =>
    simp only [walkLoop, Scan.finished.injEq] at h
    rw [← h.1]
  | cons entry rest ih =>
    cases entry with
    | orders files =>
      simp only [walkLoop] at h
      split at h
      · cases h
      · exact ih _ _ _ h
    | configuration files =>
      simp only [walkLoop] at h
      split at h
      · rw [ih _ _ _ h, scanConfFiles_pose]
      · split at h
        · simp only [Scan.finished.injEq] at h
          rw [← h.1]
        · exact ih _ _ _ h
    | other =>
      simp only [walkLoop] at h
      split at h
      · simp only [Scan.finished.injEq] at h
        rw [← h.1]
      · exact ih _ _ _ h

theorem visitProducts_missing (rt : Runtime F) (node : Node F) (id : String)
    (hmiss : productsAt node.products (rt.atoi id) = none) (ids : List String) (hid : id ∈ ids)
    (acc out : List (F × Part F)) : visitProducts rt node ids acc ≠ .ok out := by
  induction ids generalizing acc with
  | nil => cases hid
  | cons j rest ih =>
    cases hj : productsAt node.products (rt.atoi j) with
    | none => simp [visitProducts, hj]
    | some product =>
      have hrest : id ∈ rest := by
        rcases List.mem_cons.mp hid with h | h
        · rw [h, hj] at hmiss
          cases hmiss
        · exact h
      simp only [visitProducts, hj]
      cases visitParts rt node.current_pose product.parts acc with
      | error e => simp
      | ok acc2 => exact ih hrest acc2

theorem visitProducts_missing_posed (rt : Runtime F) (node : Node F) (pos : Pose F)
    (hpose : node.current_pose = some pos) (id : String)
    (hmiss : productsAt node.products (rt.atoi id) = none) (ids : List String) (hid : id ∈ ids)
    (acc : List (F × Part F)) : visitProducts rt node ids acc = .error .out_of_range := by
  induction ids generalizing acc with
  | nil => cases hid
  | cons j rest ih =>
    cases hj : productsAt node.products (rt.atoi j) with
    | none => simp [visitProducts, hj]
    | some product =>
      have hrest : id ∈ rest := by
        rcases List.mem_cons.mp hid with h | h
        · rw [h, hj] at hmiss
          cases hmiss
        · exact h
      simp only [visitProducts, hj, hpose, visitParts_some]
      exact ih hrest _

/-- C5. If some required product id of an order, converted by `atoi`, is not a key of
the catalog, `FindShortestPath` returns no sequence at all; with the robot position known
it stops with `std::out_of_range` from `products.at`, whatever the other ids are; and a
request whose resolved order is that one ends there, with nothing written by `PathOutput`
and no marker array published. -/
theorem missing_product_aborts (rt : Runtime F) (node : Node F) (details : OrderDetails F)
    (id : String) (hid : id ∈ details.products)
    (hmiss : productsAt node.products (rt.atoi id) = none) :
    (∀ out, FindShortestPath rt node details ≠ .ok out) ∧
    (∀ pos, node.current_pose = some pos →
      FindShortestPath rt node details = .error .out_of_range) ∧
    (∀ (walk : List (DirEntry F)) (node0 : Node F) (msg : OrderMsg),
      node0.current_pose.isSome = true →
      walkLoop msg.order_id walk node0 false freshDetails = .finished node true details →
      node.configuration_already = true →
        (msgNextOrder rt true walk node0 msg).ended = .fault .out_of_range ∧
        (msgNextOrder rt true walk node0 msg).published = [] ∧
        (msgNextOrder rt true walk node0 msg).cout = []) := by
  have hposed : ∀ pos, node.current_pose = some pos →
      FindShortestPath rt node details = .error .out_of_range := by
    intro pos hpose
    simp [FindShortestPath,
      visitProducts_missing_posed rt node pos hpose id hmiss details.products hid []]
  refine ⟨?_, hposed, ?_⟩
  · intro out h
    unfold FindShortestPath at h
    cases hv : visitProducts rt node details.products [] with
    | error e => simp [hv] at h
    | ok flat => exact visitProducts_missing rt node id hmiss details.products hid [] flat hv
  · intro walk node0 msg hpose0 hwalk hconf
    have hpose1 : node.current_pose = node0.current_pose :=
      walkLoop_pose msg.order_id walk node0 false freshDetails node true details hwalk
    obtain ⟨pos, hpos⟩ := Option.isSome_iff_exists.mp hpose0
    have hfsp := hposed pos (hpose1.trans hpos)
    simp [msgNextOrder, hpos, hwalk, hconf, hfsp]

end Handler

/-- C5 at an order requiring "1" (configured) and "42" (not a key of the catalog). -/
theorem missing_product_aborts_witness :
    (msgNextOrder demoRuntime true demoWalk demoNode
      { order_id := 8, description := "d" }).ended = .fault .out_of_range ∧
    (msgNextOrder demoRuntime true demoWalk demoNode
      { order_id := 8, description := "d" }).published = [] ∧
    (msgNextOrder demoRuntime true demoWalk demoNode
      { order_id := 8, description := "d" }).cout = [] :=
  (missing_product_aborts demoRuntime demoNode order42 "42" (by decide) (by decide)).2.2
    demoWalk demoNode { order_id := 8, description := "d" } rfl (by decide) rfl

section Guards

variable {F : Type} [LinearOrderedField F]

theorem walkLoop_absent (order_id : Nat) (walk : List (DirEntry F)) (node : Node F)
    (details : OrderDetails F)
    (habs : ∀ files, DirEntry.orders files ∈ walk →
      ∀ file ∈ files, ∀ e ∈ file, e.order ≠ order_id) :
    ((∃ files, DirEntry.orders files ∈ walk) ∧
        ∃ node1, walkLoop order_id walk node false details = .returned node1) ∨
      ((¬ ∃ files, DirEntry.orders files ∈ walk) ∧
        ∃ node1, walkLoop order_id walk node false details = .finished node1 false details) := by
  induction walk generalizing node with
  | nil => exact Or.inr ⟨by simp, node, rfl⟩
  | cons entry rest ih =>
    have hrest : ∀ files, DirEntry.orders files ∈ rest →
        ∀ file ∈ files, ∀ e ∈ file, e.order ≠ order_id :=
      fun files hf => habs files (List.mem_cons_of_mem _ hf)
    cases entry with
    | orders files =>
      refine Or.inl ⟨⟨files, List.mem_cons_self _ _⟩, node, ?_⟩
      simp [walkLoop, scanOrderFiles_absent order_id files false details
        (habs files (List.mem_cons_self _ _))]
    | configuration files =>
      have hmem : (∃ fs, DirEntry.orders fs ∈ DirEntry.configuration files :: rest) ↔
          ∃ fs, DirEntry.orders fs ∈ rest := by simp
      rw [hmem]
      cases hc : node.configuration_already with
      | false => simpa [walkLoop, hc] using ih (scanConfFiles node files) hrest
      | true => simpa [walkLoop, hc] using ih node hrest
    | other =>
      have hmem : (∃ fs, DirEntry.orders fs ∈ DirEntry.other :: rest) ↔
          ∃ fs, DirEntry.orders fs ∈ rest := by simp
      rw [hmem]
      simpa [walkLoop] using ih node hrest

/-- C6, amended. For every request whose order id is absent from every order file of
every `orders` folder the walk visits, no marker array is published and the handler does
not get as far as `FindShortestPath` (it neither completes nor stops in it); when the
path is a directory, the position is known and the walk visits an `orders` folder the
handler ends with the order-not-found error, and when the walk visits no `orders` folder
it ends with the folder-not-found error instead. -/
theorem absent_order_handling (rt : Runtime F) (path_is_directory : Bool)
    (walk : List (DirEntry F)) (node : Node F) (msg : OrderMsg)
    (habs : ∀ files, DirEntry.orders files ∈ walk →
      ∀ file ∈ files, ∀ e ∈ file, e.order ≠ msg.order_id) :
    (msgNextOrder rt path_is_directory walk node msg).published = [] ∧
    (∀ path_vec, (msgNextOrder rt path_is_directory walk node msg).ended ≠ .completed path_vec) ∧
    (∀ e, (msgNextOrder rt path_is_directory walk node msg).ended ≠ .fault e) ∧
    (path_is_directory = true → node.current_pose.isSome = true →
      (∃ files, DirEntry.orders files ∈ walk) →
        (msgNextOrder rt path_is_directory walk node msg).ended = .orderNotFound msg.order_id ∧
        (msgNextOrder rt path_is_directory walk node msg).cout =
          ["[ERROR]: Order " ++ toString msg.order_id ++ " not found!"]) ∧
    (path_is_directory = true → node.current_pose.isSome = true →
      (¬ ∃ files, DirEntry.orders files ∈ walk) →
        (msgNextOrder rt path_is_directory walk node msg).ended = .folderNotFound) := by
  cases hd : path_is_directory with
  | false => simp [msgNextOrder]
  | true =>
    cases hp : node.current_pose with
    | none => simp [msgNextOrder, hp]
    | some pos =>
      rcases walkLoop_absent msg.order_id walk node freshDetails habs with
        ⟨hex, node1, hw⟩ | ⟨hex, node1, hw⟩
      · simp [msgNextOrder, hp, hw, hex]
      · simp [msgNextOrder, hp, hw, hex]

/-- C7, amended. For every request handled while `current_pose` is unset, the handler
publishes no marker array, leaves the node as it was and does not get as far as
`FindShortestPath`; when the path is a directory it ends with the position-not-known
error, and when the path is not a directory it ends with the not-a-directory error
instead. -/
theorem unset_pose_handling (rt : Runtime F) (path_is_directory : Bool)
    (walk : List (DirEntry F)) (node : Node F) (msg : OrderMsg)
    (hpose : node.current_pose = none) :
    (msgNextOrder rt path_is_directory walk node msg).published = [] ∧
    (msgNextOrder rt path_is_directory walk node msg).node = node ∧
    (∀ path_vec, (msgNextOrder rt path_is_directory walk node msg).ended ≠ .completed path_vec) ∧
    (∀ e, (msgNextOrder rt path_is_directory walk node msg).ended ≠ .fault e) ∧
    (path_is_directory = true →
      (msgNextOrder rt path_is_directory walk node msg).ended = .positionNotKnown ∧
      (msgNextOrder rt path_is_directory walk node msg).cout =
        ["[ERROR]: AMR current position not Known!"]) ∧
    (path_is_directory = false →
      (msgNextOrder rt path_is_directory walk node msg).ended = .notADirectory) := by
  cases path_is_directory <;> simp [msgNextOrder, hpose]

end Guards

/-- C6 as stated fails: where the walk visits a `configuration` folder and no `orders`
folder, the id is absent from every order file, yet the handler ends with the
folder-not-found error, not the order-not-found error. -/
theorem absent_order_refuted :
    ¬ ∀ (walk : List (DirEntry ℚ)) (node : Node ℚ) (msg : OrderMsg),
      node.current_pose.isSome = true →
      (∀ files, DirEntry.orders files ∈ walk →
        ∀ file ∈ files, ∀ e ∈ file, e.order ≠ msg.order_id) →
      (msgNextOrder demoRuntime true walk node msg).ended = .orderNotFound msg.order_id := by
  intro h
  have h7 := h confOnlyWalk poseNode { order_id := 7, description := "d" } rfl
    (by simp [confOnlyWalk])
  revert h7
  decide

/-- C6, amended, at a walk with a `configuration` folder and an `orders` folder whose file
does not hold order 9. -/
theorem absent_order_handling_witness :
    (msgNextOrder demoRuntime true demoWalk poseNode
      { order_id := 9, description := "d" }).published = [] ∧
    (msgNextOrder demoRuntime true demoWalk poseNode
      { order_id := 9, description := "d" }).ended = .orderNotFound 9 :=
  have h := absent_order_handling demoRuntime true demoWalk poseNode
    { order_id := 9, description := "d" } (by simp [demoWalk, demoOrderFile])
  ⟨h.1, (h.2.2.2.1 rfl rfl ⟨[demoOrderFile], by simp [demoWalk]⟩).1⟩

/-- C7 as stated fails: with `current_pose` unset and a path that is not a directory the
handler ends with the not-a-directory error, not the position-not-known error. -/
theorem unset_pose_refuted :
    ¬ ∀ (path_is_directory : Bool) (walk : List (DirEntry ℚ)) (node : Node ℚ) (msg : OrderMsg),
      node.current_pose = none →
      (msgNextOrder demoRuntime path_is_directory walk node msg).ended = .positionNotKnown := by
  intro h
  have h7 := h false [] startNode { order_id := 7, description := "d" } rfl
  revert h7
  decide

/-- C7, amended, at a node that never received a position, with a valid directory. -/
theorem unset_pose_handling_witness :
    (msgNextOrder demoRuntime true demoWalk startNode
      { order_id := 7, description := "d" }).published = [] ∧
    (msgNextOrder demoRuntime true demoWalk startNode
      { order_id := 7, description := "d" }).ended = .positionNotKnown :=
  have h := unset_pose_handling demoRuntime true demoWalk startNode
    { order_id := 7, description := "d" } rfl
  ⟨h.1, (h.2.2.2.2.1 rfl).1⟩

/-! ## Catalog loading -/

section Catalog

variable {F : Type}

theorem mapInsert_again {V : Type} (m : List (Int × V)) (k : Int) (v w : V) :
    mapInsert (mapInsert m k v) k w = mapInsert m k v := by
  induction m with
  | nil => simp [mapInsert]
  | cons kv rest ih =>
    obtain ⟨k0, v0⟩ := kv
    by_cases h1 : k < k0
    · simp [mapInsert, h1]
    · by_cases h2 : k = k0
      · simp [mapInsert, h2]
      · simp [mapInsert, h1, h2, ih]

theorem mapInsert_settled {V : Type} (m : List (Int × V)) (k : Int)
    (hk : ∀ w, mapInsert m k w = m) (k2 : Int) (v2 : V) (w : V) :
    mapInsert (mapInsert m k2 v2) k w = mapInsert m k2 v2 := by
  induction m with
  | nil =>
    have := hk w
    simp [mapInsert] at this
  | cons kv rest ih =>
    obtain ⟨k0, v0⟩ := kv
    have hnot : ¬ k < k0 := by
      intro hlt
      have := hk w
      simp [mapInsert, hlt] at this
    by_cases hkk : k = k0
    · by_cases h1 : k2 < k0
      · have h3 : ¬ k0 < k2 := by omega
        have h4 : ¬ k0 = k2 := by omega
        simp [mapInsert, h1, hkk, h3, h4]
      · by_cases h2 : k2 = k0
        · simp [mapInsert, h2, hkk]
        · simp [mapInsert, h1, h2, hkk]
    · have hrest : ∀ w, mapInsert rest k w = rest := by
        intro w2
        have := hk w2
        simpa [mapInsert, hnot, hkk] using this
      by_cases h1 : k2 < k0
      · have h3 : ¬ k < k2 := by omega
        have h4 : ¬ k = k2 := by omega
        simp [mapInsert, h1, h3, h4, hnot, hkk, hrest w]
      · by_cases h2 : k2 = k0
        · simpa [mapInsert, h2] using hk w
        · simp [mapInsert, h1, h2, hnot, hkk, ih hrest]

end Catalog

section CatalogLoad

variable {F : Type} [LinearOrderedField F]

theorem foldl_confInsert_settled (es : List (ConfEntry F)) (m : List (Int × ProductDetails F))
    (k : Int) (hk : ∀ w, mapInsert m k w = m) (w : ProductDetails F) :
    mapInsert (es.foldl confInsert m) k w = es.foldl confInsert m := by
  induction es generalizing m with
  | nil => exact hk w
  | cons e rest ih =>
    exact ih (confInsert m e) fun w2 => mapInsert_settled m k hk e.id _ w2

theorem foldl_confInsert_keys (es : List (ConfEntry F)) (m : List (Int × ProductDetails F))
    (e : ConfEntry F) (he : e ∈ es) (w : ProductDetails F) :
    mapInsert (es.foldl confInsert m) e.id w = es.foldl confInsert m := by
  induction es generalizing m with
  | nil => cases he
  | cons e0 rest ih =>
    rcases List.mem_cons.mp he with h | h
    · subst h
      exact foldl_confInsert_settled rest (confInsert m e) e.id
        (fun w2 => mapInsert_again m e.id _ w2) w
    · exact ih (confInsert m e0) h

theorem foldl_confInsert_fixed (es : List (ConfEntry F)) (m : List (Int × ProductDetails F))
    (h : ∀ e ∈ es, ∀ w, mapInsert m e.id w = m) : es.foldl confInsert m = m := by
  induction es with
  | nil => rfl
  | cons e0 rest ih =>
    have h0 : confInsert m e0 = m := h e0 (List.mem_cons_self _ _) _
    simp only [List.foldl_cons, h0]
    exact ih fun e he => h e (List.mem_cons_of_mem _ he)

theorem parseConfFile_twice (node : Node F) (config : List (ConfEntry F)) :
    parseConfFile (parseConfFile node config) config = parseConfFile node config := by
  simp only [parseConfFile]
  rw [foldl_confInsert_fixed config _ fun e he w => foldl_confInsert_keys config _ e he w]

theorem scanConfFiles_settled (files : List (List (ConfEntry F))) (node : Node F) (k : Int)
    (hk : ∀ w, mapInsert node.products k w = node.products) (w : ProductDetails F) :
    mapInsert (scanConfFiles node files).products k w = (scanConfFiles node files).products := by
  induction files generalizing node with
  | nil => exact hk w
  | cons file rest ih =>
    exact ih (parseConfFile node file) fun w2 =>
      foldl_confInsert_settled file node.products k hk w2

theorem scanConfFiles_keys (files : List (List (ConfEntry F))) (node : Node F)
    (file : List (ConfEntry F)) (hfile : file ∈ files) (e : ConfEntry F) (he : e ∈ file)
    (w : ProductDetails F) :
    mapInsert (scanConfFiles node files).products e.id w = (scanConfFiles node files).products := by
  induction files generalizing node with
  | nil => cases hfile
  | cons f0 rest ih =>
    rcases List.mem_cons.mp hfile with h | h
    · subst h
      exact scanConfFiles_settled rest (parseConfFile node file) e.id
        (fun w2 => foldl_confInsert_keys file node.products e he w2) w
    · exact ih (parseConfFile node f0) h

theorem scanConfFiles_flag (files : List (List (ConfEntry F))) (node : Node F)
    (h : files ≠ [] ∨ node.configuration_already = true) :
    (scanConfFiles node files).configuration_already = true := by
  induction files generalizing node with
  | nil =>
    rcases h with h | h
    · exact absurd rfl h
    · exact h
  | cons file rest ih => exact ih (parseConfFile node file) (Or.inr rfl)

theorem scanConfFiles_fixed (files : List (List (ConfEntry F))) (node : Node F)
    (hflag : files = [] ∨ node.configuration_already = true)
    (h : ∀ file ∈ files, ∀ e ∈ file, ∀ w, mapInsert node.products e.id w = node.products) :
    scanConfFiles node files = node := by
  induction files with
  | nil => rfl
  | cons file rest ih =>
    have hflag1 : node.configuration_already = true := by
      rcases hflag with h0 | h0
      · cases h0
      · exact h0
    have h0 : parseConfFile node file = node := by
      simp only [parseConfFile]
      rw [foldl_confInsert_fixed file node.products (h file (List.mem_cons_self _ _)), ← hflag1]
    simp only [scanConfFiles, List.foldl_cons, h0]
    exact ih (Or.inr hflag1) fun f hf => h f (List.mem_cons_of_mem _ hf)

theorem scanConfFiles_twice (node : Node F) (files : List (List (ConfEntry F))) :
    scanConfFiles (scanConfFiles node files) files = scanConfFiles node files := by
  cases files with
  | nil => rfl
  | cons file rest =>
    exact scanConfFiles_fixed (file :: rest) _
      (Or.inr (scanConfFiles_flag (file :: rest) node (Or.inl (by simp))))
      fun f hf e he w => scanConfFiles_keys (file :: rest) node f hf e he w

theorem walkLoop_loaded (order_id : Nat) (walk : List (DirEntry F)) (node : Node F) (found : Bool)
    (details : OrderDetails F) (hflag : node.configuration_already = true) :
    (walkLoop order_id walk node found details).node = node := by
  induction walk generalizing found details with
  | nil => rfl
  | cons entry rest ih =>
    cases entry with
    | orders files =>
      simp only [walkLoop]
      split
      · rfl
      · exact ih _ _
    | configuration files =>
      simp only [walkLoop, hflag]
      cases found
      · simpa using ih false details
      · simp [Scan.node]
    | other =>
      simp only [walkLoop, hflag]
      cases found
      · simpa using ih false details
      · simp [Scan.node]

theorem walkLoop_unloaded (order_id : Nat) (walk : List (DirEntry F)) (node : Node F) (found : Bool)
    (details : OrderDetails F)
    (hflag : (walkLoop order_id walk node found details).node.configuration_already = false) :
    (walkLoop order_id walk node found details).node = node := by
  induction walk generalizing node found details with
  | nil => rfl
  | cons entry rest ih =>
    cases hc : node.configuration_already with
    | true => exact walkLoop_loaded order_id _ node found details hc
    | false =>
      cases entry with
      | orders files =>
        simp only [walkLoop] at hflag ⊢
        split
        · rfl
        · rename_i hfound
          simp only [hfound] at hflag
          exact ih _ _ _ hflag
      | configuration files =>
        simp only [walkLoop, hc] at hflag ⊢
        simp only [Bool.not_false, if_true] at hflag ⊢
        have h1 := ih _ _ _ hflag
        rw [h1] at hflag ⊢
        cases files with
        | nil => rfl
        | cons f fs =>
          rw [scanConfFiles_flag (f :: fs) node (Or.inl (by simp))] at hflag
          cases hflag
      | other =>
        simp only [walkLoop, hc, Bool.and_false] at hflag ⊢
        exact ih _ _ _ hflag

theorem msgNextOrder_node (rt : Runtime F) (path_is_directory : Bool) (walk : List (DirEntry F))
    (node : Node F) (msg : OrderMsg) :
    (msgNextOrder rt path_is_directory walk node msg).node = node ∨
      (msgNextOrder rt path_is_directory walk node msg).node =
        (walkLoop msg.order_id walk node false freshDetails).node := by
  unfold msgNextOrder
  split
  · exact Or.inl rfl
  · split
    · exact Or.inl rfl
    · right
      split
      · rename_i h
        rw [h]
        rfl
      · rename_i h
        rw [h]
        split
        · rfl
        · split <;> rfl

theorem msgNextOrder_loaded (rt : Runtime F) (path_is_directory : Bool) (walk : List (DirEntry F))
    (node : Node F) (msg : OrderMsg) (hflag : node.configuration_already = true) :
    (msgNextOrder rt path_is_directory walk node msg).node = node := by
  rcases msgNextOrder_node rt path_is_directory walk node msg with h | h
  · exact h
  · rw [h]
    exact walkLoop_loaded msg.order_id walk node false freshDetails hflag

theorem msgNextOrder_unloaded (rt : Runtime F) (path_is_directory : Bool)
    (walk : List (DirEntry F)) (node : Node F) (msg : OrderMsg)
    (hflag : (msgNextOrder rt path_is_directory walk node msg).node.configuration_already = false) :
    (msgNextOrder rt path_is_directory walk node msg).node = node := by
  rcases msgNextOrder_node rt path_is_directory walk node msg with h | h
  · exact h
  · rw [h] at hflag ⊢
    exact walkLoop_unloaded msg.order_id walk node false freshDetails hflag

/-- C8. Loading is idempotent. `parseConfFile` applied twice to the same records gives the
node (product map, loaded flag) it gives applied once, from any starting catalog; so does
the loop over the files of a `configuration` folder; handling the same request twice
leaves the node as handling it once does; and once a request has set the loaded flag, any
later request leaves the node unchanged. -/
theorem catalog_load_idempotent (rt : Runtime F) :
    (∀ (node : Node F) (config : List (ConfEntry F)),
      parseConfFile (parseConfFile node config) config = parseConfFile node config) ∧
    (∀ (node : Node F) (files : List (List (ConfEntry F))),
      scanConfFiles (scanConfFiles node files) files = scanConfFiles node files) ∧
    (∀ (path_is_directory : Bool) (walk : List (DirEntry F)) (node : Node F) (msg : OrderMsg),
      (msgNextOrder rt path_is_directory walk
        (msgNextOrder rt path_is_directory walk node msg).node msg).node =
        (msgNextOrder rt path_is_directory walk node msg).node) ∧
    (∀ (dir1 dir2 : Bool) (walk1 walk2 : List (DirEntry F)) (node : Node F) (msg1 msg2 : OrderMsg),
      (msgNextOrder rt dir1 walk1 node msg1).node.configuration_already = true →
        (msgNextOrder rt dir2 walk2 (msgNextOrder rt dir1 walk1 node msg1).node msg2).node =
          (msgNextOrder rt dir1 walk1 node msg1).node) := by
  refine ⟨parseConfFile_twice, scanConfFiles_twice, ?_, ?_⟩
  · intro path_is_directory walk node msg
    cases hc : (msgNextOrder rt path_is_directory walk node msg).node.configuration_already with
    | true => exact msgNextOrder_loaded rt path_is_directory walk _ msg hc
    | false =>
      have h := msgNextOrder_unloaded rt path_is_directory walk node msg hc
      rw [h]
      exact h
  · intro dir1 dir2 walk1 walk2 node msg1 msg2 hc
    exact msgNextOrder_loaded rt dir2 walk2 _ msg2 hc

end CatalogLoad

theorem demo_request :
    msgNextOrder demoRuntime true demoWalk poseNode { order_id := 7, description := "d" } =
      { node := demoNode
        cout := ["Working on order 7 (d)",
                 "0. Fetching part 'partA' for product 'P1' at x: 0, y: 0",
                 "1. Fetching part 'partB' for product 'P1' at x: 3, y: 4",
                 "2. Delivering to destination x:10, y: 20"]
        published := [PublishMarkerArray demoRuntime demoNode
          [(0, { part_name := "partA", cx := 0, cy := 0, distance := 0, parent_product := "P1" }),
           (5, { part_name := "partB", cx := 3, cy := 4, distance := 5, parent_product := "P1" })]]
        ended := .completed
          [(0, { part_name := "partA", cx := 0, cy := 0, distance := 0, parent_product := "P1" }),
           (5, { part_name := "partB", cx := 3, cy := 4, distance := 5, parent_product := "P1" })] } := by
  have hw : walkLoop 7 demoWalk poseNode false freshDetails = .finished demoNode true demoOrder := by
    decide
  have hp : PathOutput demoRuntime { order_id := 7, description := "d" }
      [(0, { part_name := "partA", cx := 0, cy := 0, distance := 0, parent_product := "P1" }),
       (5, { part_name := "partB", cx := 3, cy := 4, distance := 5, parent_product := "P1" })]
      demoOrder =
      ["Working on order 7 (d)",
       "0. Fetching part 'partA' for product 'P1' at x: 0, y: 0",
       "1. Fetching part 'partB' for product 'P1' at x: 3, y: 4",
       "2. Delivering to destination x:10, y: 20"] := by decide
  simp only [msgNextOrder, hw, demo_FindShortestPath, hp]
  simp [poseNode, demoNode]

/-- C8 at a node that has a position and no configuration: a first request, for order 7,
loads the configuration folder, and a second request, for order 8, leaves the node as the
first left it. -/
theorem catalog_load_idempotent_witness :
    (msgNextOrder demoRuntime true demoWalk
      (msgNextOrder demoRuntime true demoWalk poseNode { order_id := 7, description := "d" }).node
      { order_id := 8, description := "d" }).node =
    (msgNextOrder demoRuntime true demoWalk poseNode { order_id := 7, description := "d" }).node :=
  (catalog_load_idempotent demoRuntime).2.2.2 true true demoWalk demoWalk poseNode
    { order_id := 7, description := "d" } { order_id := 8, description := "d" }
    (by rw [demo_request]; rfl)

/-! ## Presentation -/

section Presenter

variable {F : Type}

theorem fetchLoop_length (rt : Runtime F) (details : OrderDetails F) (start : Nat)
    (vector : List (F × Part F)) :
    (fetchLoop rt details start vector).length = vector.length + 1 := by
  induction vector generalizing start with
  | nil => rfl
  | cons p rest ih => simp [fetchLoop, ih]

theorem fetchLoop_fetch (rt : Runtime F) (details : OrderDetails F) (start : Nat)
    (vector : List (F × Part F)) (i : Nat) (p : F × Part F) (h : vector[i]? = some p) :
    (fetchLoop rt details start vector)[i]? = some (fetchLine rt (start + i) p) := by
  induction vector generalizing start i with
  | nil => simp at h
  | cons q rest ih =>
    cases i with
    | zero =>
      simp only [List.getElem?_cons_zero, Option.some.injEq] at h
      simp [fetchLoop, h]
    | succ j =>
      simp only [List.getElem?_cons_succ] at h
      simp only [fetchLoop, List.getElem?_cons_succ, ih (start + 1) j h]
      congr 2
      omega

theorem fetchLoop_deliver (rt : Runtime F) (details : OrderDetails F) (start : Nat)
    (vector : List (F × Part F)) :
    (fetchLoop rt details start vector)[vector.length]? =
      some (deliverLine rt (start + vector.length) details) := by
  induction vector generalizing start with
  | nil => simp [fetchLoop]
  | cons q rest ih =>
    simp only [fetchLoop, List.length_cons, List.getElem?_cons_succ, ih (start + 1)]
    congr 2
    omega

/-- C9. The marker array built by `PublishMarkerArray` for a sequence of M pickups has
M + 1 markers. The first is the robot marker: a `CUBE`, green, at the current position if
known and at the origin otherwise. For each i < M the marker at index i + 1 is a red
`CYLINDER` at the coordinate of the i-th pickup, labelled with its parent product and part
name separated by a blank. -/
theorem marker_array_layout [LinearOrderedField F] (rt : Runtime F) (node : Node F)
    (path_vec : List (F × Part F)) :
    (PublishMarkerArray rt node path_vec).length = path_vec.length + 1 ∧
    (∃ amr, (PublishMarkerArray rt node path_vec)[0]? = some amr ∧
      amr.type = MarkerType.CUBE ∧ amr.ns = "AMR" ∧
      amr.color = { r := 0, g := 1, b := 0, a := 1 } ∧
      (∀ pos, node.current_pose = some pos → amr.x = pos.x ∧ amr.y = pos.y) ∧
      (node.current_pose = none → amr.x = 0 ∧ amr.y = 0)) ∧
    (∀ i p, path_vec[i]? = some p →
      ∃ m, (PublishMarkerArray rt node path_vec)[i + 1]? = some m ∧
        m.type = MarkerType.CYLINDER ∧
        m.color = { r := 1, g := 0, b := 0, a := 1 } ∧
        m.x = p.2.cx ∧ m.y = p.2.cy ∧
        m.ns = p.2.parent_product ++ " " ++ p.2.part_name) := by
  refine ⟨by simp [PublishMarkerArray], ⟨AMRMarker node, by simp [PublishMarkerArray], ?_⟩, ?_⟩
  · refine ⟨?_, ?_, ?_, ?_, ?_⟩
    · cases h : node.current_pose <;> simp [AMRMarker, h, Marker.empty]
    · cases h : node.current_pose <;> simp [AMRMarker, h, Marker.empty]
    · cases h : node.current_pose <;> simp [AMRMarker, h, Marker.empty]
    · intro pos h
      simp [AMRMarker, h, Marker.empty]
    · intro h
      simp [AMRMarker, h, Marker.empty]
  · intro i p h
    refine ⟨Pickup rt p, by simp [PublishMarkerArray, h], ?_⟩
    simp [Pickup, Marker.empty]

/-- C10. What `PathOutput` writes for a sequence of M pickups is the heading
`Working on order <id> (<description>)` and then the numbered lines: for each i < M the
line `i. Fetching part '<name>' for product '<parent>' at x: <cx>, y: <cy>` of the i-th
pickup, in sequence order, followed by one delivery line for the destination of the order,
numbered M. -/
theorem path_output_lines [LinearOrderedField F] (rt : Runtime F) (msg : OrderMsg) (vector : List (F × Part F))
    (details : OrderDetails F) :
    (PathOutput rt msg vector details).length = vector.length + 2 ∧
    (PathOutput rt msg vector details)[0]? =
      some ("Working on order " ++ toString msg.order_id ++ " (" ++ msg.description ++ ")") ∧
    (∀ i p, vector[i]? = some p →
      (PathOutput rt msg vector details)[i + 1]? =
        some (toString i ++ ". Fetching part '" ++ p.2.part_name ++ "' for product '" ++
          p.2.parent_product ++ "' at x: " ++ rt.showFloat p.2.cx ++ ", y: " ++
          rt.showFloat p.2.cy)) ∧
    (PathOutput rt msg vector details)[vector.length + 1]? =
      some (toString vector.length ++ ". Delivering to destination x:" ++
        rt.showFloat details.cx ++ ", y: " ++ rt.showFloat details.cy) := by
  refine ⟨by simp [PathOutput, fetchLoop_length], by simp [PathOutput], ?_, ?_⟩
  · intro i p h
    simp [PathOutput, fetchLoop_fetch rt details 0 vector i p h, fetchLine]
  · simp [PathOutput, fetchLoop_deliver rt details 0 vector, deliverLine]

end Presenter

/-- C9 at the scenario of the specification: three markers, the robot first, then
`partA` and `partB` in sequence order. -/
theorem marker_array_layout_witness :
    (PublishMarkerArray demoRuntime demoNode
      [(0, { part_name := "partA", cx := 0, cy := 0, distance := 0, parent_product := "P1" }),
       (5, { part_name := "partB", cx := 3, cy := 4, distance := 5, parent_product := "P1" })]).length
      = 3 ∧
    (PublishMarkerArray demoRuntime demoNode
      [(0, { part_name := "partA", cx := 0, cy := 0, distance := 0, parent_product := "P1" }),
       (5, { part_name := "partB", cx := 3, cy := 4, distance := 5, parent_product := "P1" })]).map
      (fun m => (m.type, m.ns, m.x, m.y)) =
      [(MarkerType.CUBE, "AMR", 0, 0), (MarkerType.CYLINDER, "P1 partA", 0, 0),
       (MarkerType.CYLINDER, "P1 partB", 3, 4)] :=
  ⟨(marker_array_layout demoRuntime demoNode
      [(0, { part_name := "partA", cx := 0, cy := 0, distance := 0, parent_product := "P1" }),
       (5, { part_name := "partB", cx := 3, cy := 4, distance := 5, parent_product := "P1" })]).1,
    by decide⟩

/-- C10 at the scenario of the specification: line 0 is for `partA`, line 1 for `partB`,
line 2 is the delivery line. -/
theorem path_output_lines_witness :
    PathOutput demoRuntime { order_id := 7, description := "d" }
        [(0, { part_name := "partA", cx := 0, cy := 0, distance := 0, parent_product := "P1" }),
         (5, { part_name := "partB", cx := 3, cy := 4, distance := 5, parent_product := "P1" })]
        demoOrder =
      ["Working on order 7 (d)",
       "0. Fetching part 'partA' for product 'P1' at x: 0, y: 0",
       "1. Fetching part 'partB' for product 'P1' at x: 3, y: 4",
       "2. Delivering to destination x:10, y: 20"] ∧
    (PathOutput demoRuntime { order_id := 7, description := "d" }
        [(0, { part_name := "partA", cx := 0, cy := 0, distance := 0, parent_product := "P1" }),
         (5, { part_name := "partB", cx := 3, cy := 4, distance := 5, parent_product := "P1" })]
        demoOrder).length = 2 + 2 :=
  ⟨by decide,
    (path_output_lines demoRuntime { order_id := 7, description := "d" }
        [(0, { part_name := "partA", cx := 0, cy := 0, distance := 0, parent_product := "P1" }),
         (5, { part_name := "partB", cx := 3, cy := 4, distance := 5, parent_product := "P1" })]
        demoOrder).1⟩

end OrderOptimizer
